import Mathlib

/-!
Verification development for `rgfs` (`src/main.rs`), a tool that formats the
staged (index) content of files in a git working copy.

Shallow embedding notes:

* `parse_diff` uses the Rust `regex` crate with the fixed pattern
  `(\d{6}) (\d{6}) ([0-9a-f]{40}) ([0-9a-f]{40}) ([ACDMRTUXB])\d{0,3} (.+?)(?:\t(.+))?$`.
  The pattern has exactly seven capture groups (the `\d{0,3}` after the status
  letter is NOT parenthesised, hence not captured).  The matcher below is a
  direct determinisation of this one pattern under the crate's leftmost-first
  semantics: all quantifiers except the score run and the tail are fixed
  length; the greedy `\d{0,3}` followed by a literal space must take exactly
  the run of digits present (a shorter take would face a digit where the space
  is required), and fails when that run exceeds three digits; the lazy
  `(.+?)(?:\t(.+))?$` tail splits at the first tab that has at least one
  further character after it (none of them a newline, which `.` cannot match),
  and otherwise takes the whole remainder.  `\d` is modelled as an ASCII digit
  (the inputs of interest are ASCII; the digit class is only reached on digit
  data produced by git).
* The `glob` crate (v0.3) `Pattern::new` / `Pattern::matches` pair is embedded
  below (`Pattern.new`, `Pattern.matches`).  The program only ever calls
  `matches`, which uses the crate's default `MatchOptions`
  (`case_sensitive = true`, `require_literal_separator = false`,
  `require_literal_leading_dot = false`); those defaults are baked in.
  Recursive functions whose termination measure is lexicographic are given an
  explicit fuel argument so that every definition reduces inside the kernel;
  the fuel supplied by the wrappers strictly dominates the call-depth measure
  (each call consumes at least one unit while the measure drops by at least
  one), which is also proved (`globGo_fuel_congr`, `newLoopF_fuel_congr`).
* `std::path::PathBuf` is modelled by the operations the program uses:
  construction from UTF-8 strings, `join`, and `to_str`.  The `invalid`
  constructor stands for a `PathBuf` whose OS bytes are not valid UTF-8, for
  which `to_str` returns `None`.
* The body of `format_file_in_index` in the source is the placeholder
  `todo!("finish this function")`; it is modelled from the specification
  (see its doc comment).  Likewise the run's exit-code aggregation
  (`run_failed`) does not exist in the source and is modelled from the spec.
* Subprocess interaction (git blob reads, the formatter, working-tree
  content, patch application) is abstracted as an explicit `World` record,
  and the raw `git diff-index` output is passed to the batch driver as a list
  of lines.  Logging macros are dropped except for the path-encoding warning
  in `matches_some_path`, which is kept as an explicit `LogEvent` so the
  warning behaviour can be stated.
* Rust panics (`expect`, `unwrap`, failed `parse`) are modelled by `Option`
  (`none` = the process aborts).
-/

/-- Decidable equality for `Except`, used to evaluate concrete parser and
pattern-compiler results. -/
instance {ε α : Type} [DecidableEq ε] [DecidableEq α] : DecidableEq (Except ε α)
  | Except.ok a, Except.ok b =>
    if h : a = b then isTrue (by rw [h])
    else isFalse (by intro he; cases he; exact h rfl)
  | Except.ok _, Except.error _ => isFalse (by intro h; cases h)
  | Except.error _, Except.ok _ => isFalse (by intro h; cases h)
  | Except.error e, Except.error f =>
    if h : e = f then isTrue (by rw [h])
    else isFalse (by intro he; cases he; exact h rfl)

/-! ## Glob patterns (`glob` crate v0.3, as used through `SignedPattern`) -/

/-- One entry of a glob character class, `glob::CharSpecifier`. -/
inductive CharSpecifier where
  | singleChar (c : Char)
  | charRange (lo hi : Char)
deriving DecidableEq

/-- One compiled glob token, `glob::PatternToken`. -/
inductive Token where
  | char (c : Char)
  | anyChar
  | anySequence
  | anyRecursiveSequence
  | anyWithin (specs : List CharSpecifier)
  | anyExcept (specs : List CharSpecifier)
deriving DecidableEq

/-- Compile errors of `glob::Pattern::new` (the source positions carried by
`glob::PatternError` are dropped; the program only checks for failure). -/
inductive PatternErr where
  | wildcards
  | recursiveWildcards
  | invalidRange
deriving DecidableEq

/-- The `parse_char_specifiers` helper of the glob crate: a `-` with a
character on both sides forms a range, everything else is a single char. -/
def parseCharSpecifiers : List Char → List CharSpecifier
  | [] => []
  | a :: '-' :: b :: rest => CharSpecifier.charRange a b :: parseCharSpecifiers rest
  | a :: rest => CharSpecifier.singleChar a :: parseCharSpecifiers rest

/-- Split a character list at the first `]`: returns the part before it and
the part after it (models `iter().position(|x| *x == ']')` plus the slicing
done with the found position). -/
def splitAtRBracket : List Char → Option (List Char × List Char)
  | [] => none
  | c :: rest =>
    if c = ']' then some ([], rest)
    else
      match splitAtRBracket rest with
      | none => none
      | some (before, after) => some (c :: before, after)

theorem splitAtRBracket_length :
    ∀ l before after, splitAtRBracket l = some (before, after) →
      after.length < l.length := by
  intro l
  induction l with
  | nil => intro b a h; simp [splitAtRBracket] at h
  | cons c rest ih =>
    intro b a h
    rw [splitAtRBracket] at h
    split at h
    · simp at h
      obtain ⟨-, rfl⟩ := h
      simp
    · split at h
      · simp at h
      · rename_i before after heq
        simp at h
        obtain ⟨-, rfl⟩ := h
        have := ih before after heq
        simp
        omega

/-- The two `'['` arms of `Pattern::new`'s compile loop, applied to the text
`u` that follows the `[`.  Mirrors the guards of the Rust code: the
`[!...]` arm requires at least four further characters and searches for the
closing `]` from the second character after the `!` on; the plain `[...]`
arm requires at least three further characters and searches from the second
character on; shorter or unclosed classes are `ERROR_INVALID_RANGE`. -/
def classToken : List Char → Except PatternErr (Token × List Char)
  | [] => .error PatternErr.invalidRange
  | c0 :: v =>
    if c0 = '!' ∧ 3 ≤ v.length then
      -- the `[!...]` arm: at least four characters follow the `[`; the search
      -- for `]` starts after the first class character
      match v with
      | c1 :: v2 =>
        match splitAtRBracket v2 with
        | some (before, after) =>
          .ok (Token.anyExcept (parseCharSpecifiers (c1 :: before)), after)
        | none => .error PatternErr.invalidRange
      | [] => .error PatternErr.invalidRange  -- unreachable under the length guard
    else if 2 ≤ v.length then
      -- the plain `[...]` arm: at least three characters follow the `[`
      match splitAtRBracket v with
      | some (before, after) =>
        .ok (Token.anyWithin (parseCharSpecifiers (c0 :: before)), after)
      | none => .error PatternErr.invalidRange
    else .error PatternErr.invalidRange

theorem classToken_length :
    ∀ u tok after, classToken u = .ok (tok, after) → after.length < u.length := by
  intro u tok after h
  match u with
  | [] => simp [classToken] at h
  | c0 :: v =>
    rw [classToken.eq_def] at h
    simp only [] at h
    split at h
    · split at h
      · split at h
        · rename_i before after' heq
          simp at h
          obtain ⟨-, rfl⟩ := h
          have := splitAtRBracket_length _ before after' heq
          simp
          omega
        · simp at h
      · simp at h
    · split at h
      · split at h
        · rename_i before after' heq
          simp at h
          obtain ⟨-, rfl⟩ := h
          have := splitAtRBracket_length _ before after' heq
          simp
          omega
        · simp at h
      · simp at h

/-- If the most recently pushed token is `anyRecursiveSequence` and more than
one token has been pushed, a further `anyRecursiveSequence` is collapsed
(mirrors the `tokens_len > 1 && tokens[tokens_len - 1] == AnyRecursiveSequence`
check; `acc` holds the pushed tokens in reverse order). -/
def pushRecursive (acc : List Token) : List Token :=
  if 1 < acc.length ∧ acc.head? = some Token.anyRecursiveSequence then acc
  else Token.anyRecursiveSequence :: acc

/-- The compile loop of `glob::Pattern::new`, with explicit fuel (one unit per
iteration; every iteration consumes at least one input character, so
`cs.length + 1` units always suffice — see `newLoopF_fuel_congr`).
`prev` is the character before the current position (`none` at the start),
used by the validity check for `**`; `acc` holds the tokens pushed so far in
reverse order. -/
def newLoopF : Nat → List Char → Option Char → List Token →
    Except PatternErr (List Token)
  | 0, _, _, _ => .error PatternErr.invalidRange  -- fuel exhausted: unreachable
  | _ + 1, [], _, acc => .ok acc
  | fuel + 1, c :: rest, prev, acc =>
    if c = '?' then newLoopF fuel rest (some '?') (Token.anyChar :: acc)
    else if c = '*' then
      if rest.head? = some '*' then
        -- a run of at least two consecutive `*`; `rest.tail` is what follows
        -- the second one
        if rest.tail.head? = some '*' then
          -- a run of three or more consecutive `*`
          .error PatternErr.wildcards
        else if prev = none ∨ prev = some '/' then
          -- a run of exactly two `*`: valid only as an entire path component,
          -- i.e. preceded by the pattern start or a `/`, and followed by a
          -- `/` (which is then consumed) or the pattern end
          if rest.tail.head? = some '/' then
            newLoopF fuel rest.tail.tail (some '/') (pushRecursive acc)
          else if rest.tail = [] then
            newLoopF fuel [] (some '*') (pushRecursive acc)
          else .error PatternErr.recursiveWildcards
        else .error PatternErr.recursiveWildcards
      else newLoopF fuel rest (some '*') (Token.anySequence :: acc)
    else if c = '[' then
      match classToken rest with
      | .ok (tok, after) => newLoopF fuel after (some ']') (tok :: acc)
      | .error e => .error e
    else newLoopF fuel rest (some c) (Token.char c :: acc)

/-- Fuel adequacy for `newLoopF`: every iteration consumes at least one input
character, so any fuel exceeding the input length computes the canonical
result. -/
theorem newLoopF_canon :
    ∀ f cs prev acc, cs.length < f →
      newLoopF f cs prev acc = newLoopF (cs.length + 1) cs prev acc := by
  intro f
  induction f using Nat.strong_induction_on with
  | _ f ih =>
    intro cs prev acc hf
    obtain ⟨f', rfl⟩ : ∃ g, f = g + 1 := ⟨f - 1, by omega⟩
    cases cs with
    | nil => simp [newLoopF]
    | cons c rest =>
      have hr : rest.length < f' := by simp at hf; omega
      simp only [List.length_cons, newLoopF]
      by_cases hq : c = '?'
      · rw [if_pos hq, if_pos hq]
        exact ih f' (by omega) rest (some '?') (Token.anyChar :: acc) hr
      · rw [if_neg hq, if_neg hq]
        by_cases hs : c = '*'
        · rw [if_pos hs, if_pos hs]
          by_cases h1 : rest.head? = some '*'
          · rw [if_pos h1, if_pos h1]
            have hne : rest ≠ [] := by intro h; rw [h] at h1; simp at h1
            have p1 : 0 < rest.length := List.length_pos.mpr hne
            have l1 : rest.tail.length = rest.length - 1 := List.length_tail rest
            by_cases h2 : rest.tail.head? = some '*'
            · rw [if_pos h2, if_pos h2]
            · rw [if_neg h2, if_neg h2]
              by_cases hp : prev = none ∨ prev = some '/'
              · rw [if_pos hp, if_pos hp]
                by_cases h3 : rest.tail.head? = some '/'
                · rw [if_pos h3, if_pos h3]
                  have hne2 : rest.tail ≠ [] := by intro h; rw [h] at h3; simp at h3
                  have p2 : 0 < rest.tail.length := List.length_pos.mpr hne2
                  have l2 : rest.tail.tail.length = rest.tail.length - 1 :=
                    List.length_tail rest.tail
                  rw [ih f' (by omega) rest.tail.tail (some '/') (pushRecursive acc)
                        (by omega),
                      ih (rest.length + 1) (by omega) rest.tail.tail (some '/')
                        (pushRecursive acc) (by omega)]
                · rw [if_neg h3, if_neg h3]
                  by_cases h4 : rest.tail = []
                  · rw [if_pos h4, if_pos h4]
                    rw [ih f' (by omega) [] (some '*') (pushRecursive acc) (by simp; omega)]
                    simp [newLoopF]
                  · rw [if_neg h4, if_neg h4]
              · rw [if_neg hp, if_neg hp]
          · rw [if_neg h1, if_neg h1]
            rw [ih f' (by omega) rest (some '*') (Token.anySequence :: acc) hr]
        · rw [if_neg hs, if_neg hs]
          by_cases hb : c = '['
          · rw [if_pos hb, if_pos hb]
            cases hct : classToken rest with
            | ok p =>
              obtain ⟨tok, after⟩ := p
              have hlt := classToken_length rest tok after hct
              simp only [hct]
              rw [ih f' (by omega) after (some ']') (tok :: acc) (by omega),
                  ih (rest.length + 1) (by omega) after (some ']') (tok :: acc) (by omega)]
            | error e => simp [hct]
          · rw [if_neg hb, if_neg hb]
            rw [ih f' (by omega) rest (some c) (Token.char c :: acc) hr]

/-- Fuel irrelevance for `newLoopF`. -/
theorem newLoopF_fuel_congr (f1 f2 : Nat) (cs : List Char) (prev : Option Char)
    (acc : List Token) (h1 : cs.length < f1) (h2 : cs.length < f2) :
    newLoopF f1 cs prev acc = newLoopF f2 cs prev acc := by
  rw [newLoopF_canon f1 cs prev acc h1, newLoopF_canon f2 cs prev acc h2]

/-- A compiled glob pattern (`glob::Pattern`; the `original` string and the
`is_recursive` flag, which are only used by filesystem iteration and
`Display`, are omitted). -/
structure Pattern where
  tokens : List Token
deriving DecidableEq

/-- `glob::Pattern::new`. -/
def Pattern.new (s : String) : Except PatternErr Pattern :=
  match newLoopF (s.data.length + 1) s.data none [] with
  | .ok acc => .ok ⟨acc.reverse⟩
  | .error e => .error e

/-- `in_char_specifiers` with the default options (`case_sensitive = true`):
a char is in the class if it equals a single char or lies in a range. -/
def inCharSpecifiers (specs : List CharSpecifier) (c : Char) : Bool :=
  specs.any fun s =>
    match s with
    | CharSpecifier.singleChar sc => sc == c
    | CharSpecifier.charRange lo hi => decide (lo ≤ c) && decide (c ≤ hi)

/-- Whether a non-sequence token matches one character, under the default
`MatchOptions` (so no literal-separator or leading-dot restrictions). -/
def tokenMatchesChar : Token → Char → Bool
  | Token.anyChar, _ => true
  | Token.anyWithin specs, c => inCharSpecifiers specs c
  | Token.anyExcept specs, c => !inCharSpecifiers specs c
  | Token.char c2, c => c == c2
  | Token.anySequence, _ => false   -- unreachable: handled by the sequence arm
  | Token.anyRecursiveSequence, _ => false

/-- `glob::MatchResult`. -/
inductive MatchResult where
  | matchOk
  | subPatternDoesntMatch
  | entirePatternDoesntMatch
deriving DecidableEq

/-- The matching engine `Pattern::matches_from` of the glob crate, under the
default `MatchOptions`, with explicit fuel.

`mode = none` is a plain `matches_from` call on the token list `ts`;
`mode = some recursive` is the consume-loop run for a just-seen
`AnySequence` (`recursive = false`) or `AnyRecursiveSequence`
(`recursive = true`) whose empty-consumption attempt already returned
`subPatternDoesntMatch`: it consumes one character at a time, retrying the
rest of the pattern after each character (for a recursive sequence only at
component boundaries, i.e. after a `/`), and when the input is exhausted it
falls through to the remaining tokens against the empty input, exactly like
the Rust `while let` loop falling out into the enclosing `for` loop.
A non-`subPatternDoesntMatch` result of any retry is returned immediately.

Fuel: each call consumes one unit, and the measure
`3 * file.length + 2 * ts.length + (1 or 2)` strictly decreases along every
call edge, so the fuel passed by `Pattern.matches` below is always enough
(`globGo_fuel_congr` proves fuel-irrelevance above the measure). -/
def globGo : Nat → Option Bool → List Token → List Char → Bool → MatchResult
  | 0, _, _, _, _ => MatchResult.entirePatternDoesntMatch  -- fuel exhausted: unreachable
  | _ + 1, none, [], file, _ =>
    if file.isEmpty then MatchResult.matchOk else MatchResult.subPatternDoesntMatch
  | fuel + 1, none, Token.anySequence :: ts, file, fs =>
    (match globGo fuel none ts file fs with
     | MatchResult.subPatternDoesntMatch => globGo fuel (some false) ts file fs
     | m => m)
  | fuel + 1, none, Token.anyRecursiveSequence :: ts, file, fs =>
    (match globGo fuel none ts file fs with
     | MatchResult.subPatternDoesntMatch => globGo fuel (some true) ts file fs
     | m => m)
  | _ + 1, none, _ :: _, [], _ => MatchResult.entirePatternDoesntMatch
  | fuel + 1, none, t :: ts, c :: rest, _ =>
    if tokenMatchesChar t c then globGo fuel none ts rest (c == '/')
    else MatchResult.subPatternDoesntMatch
  | fuel + 1, some _, ts, [], fs => globGo fuel none ts [] fs
  | fuel + 1, some recursive, ts, c :: rest, _ =>
    if recursive && !(c == '/') then globGo fuel (some recursive) ts rest (c == '/')
    else
      match globGo fuel none ts rest (c == '/') with
      | MatchResult.subPatternDoesntMatch => globGo fuel (some recursive) ts rest (c == '/')
      | m => m

/-- The call-depth measure dominated by the fuel of `globGo`. -/
def globMeasure (mode : Option Bool) (ts : List Token) (file : List Char) : Nat :=
  3 * file.length + 2 * ts.length + (match mode with | none => 1 | some _ => 2)

/-- Any fuel at least the measure computes the same result as fuel exactly the
measure: the fuel argument of `globGo` is irrelevant above `globMeasure`, so
the fueled engine is a faithful rendering of the crate's recursion. -/
theorem globGo_canon :
    ∀ f mode ts file fs, globMeasure mode ts file ≤ f →
      globGo f mode ts file fs = globGo (globMeasure mode ts file) mode ts file fs := by
  intro f
  induction f using Nat.strong_induction_on with
  | _ f ih =>
    intro mode ts file fs hf
    have hM1 : 1 ≤ globMeasure mode ts file := by
      cases mode <;> simp [globMeasure]
    obtain ⟨f', rfl⟩ : ∃ g, f = g + 1 := ⟨f - 1, by omega⟩
    obtain ⟨m, hm⟩ : ∃ m, globMeasure mode ts file = m + 1 :=
      ⟨globMeasure mode ts file - 1, by omega⟩
    have hmf : m + 1 ≤ f' + 1 := by rw [← hm]; exact hf
    rw [hm]
    cases mode with
    | none =>
      cases ts with
      | nil => simp [globGo]
      | cons t ts =>
        cases t with
        | anySequence =>
          have h1 : globMeasure none ts file ≤ f' ∧ globMeasure none ts file ≤ m ∧
              globMeasure (some false) ts file ≤ f' ∧ globMeasure (some false) ts file ≤ m := by
            simp [globMeasure] at hm hf ⊢
            omega
          simp only [globGo]
          rw [ih f' (by omega) none ts file fs h1.1,
              ih m (by omega) none ts file fs h1.2.1,
              ih f' (by omega) (some false) ts file fs h1.2.2.1,
              ih m (by omega) (some false) ts file fs h1.2.2.2]
        | anyRecursiveSequence =>
          have h1 : globMeasure none ts file ≤ f' ∧ globMeasure none ts file ≤ m ∧
              globMeasure (some true) ts file ≤ f' ∧ globMeasure (some true) ts file ≤ m := by
            simp [globMeasure] at hm hf ⊢
            omega
          simp only [globGo]
          rw [ih f' (by omega) none ts file fs h1.1,
              ih m (by omega) none ts file fs h1.2.1,
              ih f' (by omega) (some true) ts file fs h1.2.2.1,
              ih m (by omega) (some true) ts file fs h1.2.2.2]
        | char c0 =>
          cases file with
          | nil => simp [globGo]
          | cons c rest =>
            have h1 : globMeasure none ts rest ≤ f' ∧ globMeasure none ts rest ≤ m := by
              simp [globMeasure] at hm hf ⊢
              omega
            simp only [globGo]
            rw [ih f' (by omega) none ts rest (c == '/') h1.1,
                ih m (by omega) none ts rest (c == '/') h1.2]
        | anyChar =>
          cases file with
          | nil => simp [globGo]
          | cons c rest =>
            have h1 : globMeasure none ts rest ≤ f' ∧ globMeasure none ts rest ≤ m := by
              simp [globMeasure] at hm hf ⊢
              omega
            simp only [globGo]
            rw [ih f' (by omega) none ts rest (c == '/') h1.1,
                ih m (by omega) none ts rest (c == '/') h1.2]
        | anyWithin specs =>
          cases file with
          | nil => simp [globGo]
          | cons c rest =>
            have h1 : globMeasure none ts rest ≤ f' ∧ globMeasure none ts rest ≤ m := by
              simp [globMeasure] at hm hf ⊢
              omega
            simp only [globGo]
            rw [ih f' (by omega) none ts rest (c == '/') h1.1,
                ih m (by omega) none ts rest (c == '/') h1.2]
        | anyExcept specs =>
          cases file with
          | nil => simp [globGo]
          | cons c rest =>
            have h1 : globMeasure none ts rest ≤ f' ∧ globMeasure none ts rest ≤ m := by
              simp [globMeasure] at hm hf ⊢
              omega
            simp only [globGo]
            rw [ih f' (by omega) none ts rest (c == '/') h1.1,
                ih m (by omega) none ts rest (c == '/') h1.2]
    | some r =>
      cases file with
      | nil =>
        have h1 : globMeasure none ts [] ≤ f' ∧ globMeasure none ts [] ≤ m := by
          simp [globMeasure] at hm hf ⊢
          omega
        simp only [globGo]
        rw [ih f' (by omega) none ts [] fs h1.1,
            ih m (by omega) none ts [] fs h1.2]
      | cons c rest =>
        have h1 : globMeasure (some r) ts rest ≤ f' ∧ globMeasure (some r) ts rest ≤ m ∧
            globMeasure none ts rest ≤ f' ∧ globMeasure none ts rest ≤ m := by
          simp [globMeasure] at hm hf ⊢
          omega
        simp only [globGo]
        rw [ih f' (by omega) (some r) ts rest (c == '/') h1.1,
            ih m (by omega) (some r) ts rest (c == '/') h1.2.1,
            ih f' (by omega) none ts rest (c == '/') h1.2.2.1,
            ih m (by omega) none ts rest (c == '/') h1.2.2.2]

/-- Fuel irrelevance for `globGo`: any two fuels at least the measure agree. -/
theorem globGo_fuel_congr (f1 f2 : Nat) (mode : Option Bool) (ts : List Token)
    (file : List Char) (fs : Bool)
    (h1 : globMeasure mode ts file ≤ f1) (h2 : globMeasure mode ts file ≤ f2) :
    globGo f1 mode ts file fs = globGo f2 mode ts file fs := by
  rw [globGo_canon f1 mode ts file fs h1, globGo_canon f2 mode ts file fs h2]

/-- `glob::Pattern::matches` (equivalently `matches_with` at the default
options): run the engine from the whole token list on the whole string,
starting with `follows_separator = true`. -/
def Pattern.matches (p : Pattern) (s : String) : Bool :=
  globGo (globMeasure none p.tokens s.data) none p.tokens s.data true
    == MatchResult.matchOk

/-! ## Signed patterns (`SignedPattern` in the source) -/

/-- The tuple struct `SignedPattern(bool, glob::Pattern)`: field `positive`
models component `.0` (`false` when the pattern text began with `!`), field
`pattern` component `.1`. -/
structure SignedPattern where
  positive : Bool
  pattern : Pattern
deriving DecidableEq

/-- `SignedPattern::from_str`: a leading `!` negates the pattern and is
stripped before compiling the glob. -/
def SignedPattern.from_str (s : String) : Except PatternErr SignedPattern :=
  if s.data.head? = some '!' then
    match Pattern.new (String.mk s.data.tail) with
    | .ok p => .ok ⟨false, p⟩
    | .error e => .error e
  else
    match Pattern.new s with
    | .ok p => .ok ⟨true, p⟩
    | .error e => .error e

/-! ## Paths (`std::path::PathBuf` on Unix, as used by this program) -/

/-- Model of `PathBuf`: the program only builds paths from UTF-8 strings
(`PathBuf::from(&str)`, `Path::join(&str)`) and reads them back with
`to_str`.  `invalid` stands for a `PathBuf` whose OS-level bytes are not
valid UTF-8, for which `to_str` returns `None`; no operation of this program
can produce one from a `utf8` path and a `&str` argument. -/
inductive PathBuf where
  | utf8 (s : String)
  | invalid
deriving DecidableEq

/-- `Path::to_str`. -/
def PathBuf.toStr : PathBuf → Option String
  | PathBuf.utf8 s => some s
  | PathBuf.invalid => none

/-- Whether a Unix path string is absolute (`Path::is_absolute`/`has_root`:
its first byte is `/`). -/
def strIsAbsolute (s : String) : Bool := s.data.head? == some '/'

/-- Whether a Unix path string ends in the separator (the `need_sep` test of
`PathBuf::push` is the negation of this, for nonempty buffers). -/
def strEndsWithSlash (s : String) : Bool := s.data.getLast? == some '/'

/-- String-level semantics of Unix `PathBuf::push` of a relative-or-absolute
`rel` onto `root`: an absolute `rel` replaces `root`; otherwise a `/` is
inserted when `root` is nonempty and does not already end in one. -/
def joinStr (root rel : String) : String :=
  if strIsAbsolute rel then rel
  else if root.data.isEmpty then rel
  else if strEndsWithSlash root then root ++ rel
  else root ++ "/" ++ rel

/-- `Path::join` (only ever called by this program with a `utf8` root;
appending UTF-8 text to invalid bytes leaves them invalid). -/
def PathBuf.join : PathBuf → String → PathBuf
  | PathBuf.utf8 root, rel => PathBuf.utf8 (joinStr root rel)
  | PathBuf.invalid, _ => PathBuf.invalid

/-- `normalize_path` from the source:
`git_root.map(|root| root.join(relative_path)).unwrap_or(relative_path.into())`
written as the source's `match`. -/
def normalize_path (relative_path : String) (git_root : Option PathBuf) : PathBuf :=
  match git_root with
  | some root => root.join relative_path
  | none => PathBuf.utf8 relative_path

/-! ## The pattern matcher (`matches_some_path`) -/

/-- Log events of the run; the only one the embedding keeps is the
`warn!("Failed to convert path to string ...")` emitted by
`matches_some_path` when `to_str` fails. -/
inductive LogEvent where
  | pathEncodingWarning (path : PathBuf)
deriving DecidableEq

/-- The `for signed_pattern in signed_patterns` loop of `matches_some_path`:
`is_match` starts `false` and is overwritten with the pattern's sign each
time its glob matches the path string. -/
def matchLoop (path_str : String) : List SignedPattern → Bool → Bool
  | [], is_match => is_match
  | sp :: rest, is_match =>
    matchLoop path_str rest (if sp.pattern.matches path_str then sp.positive else is_match)

/-- `matches_some_path`, with its `warn!` side effect made explicit: when the
path cannot be converted to a string the function warns and returns `false`
(the file is skipped); otherwise it runs the last-match-wins loop and emits
nothing. -/
def matches_some_path_logged (signed_patterns : List SignedPattern) (path : PathBuf) :
    Bool × List LogEvent :=
  match path.toStr with
  | none => (false, [LogEvent.pathEncodingWarning path])
  | some path_str => (matchLoop path_str signed_patterns false, [])

/-- The boolean result of `matches_some_path` (what the batch driver uses). -/
def matches_some_path (signed_patterns : List SignedPattern) (path : PathBuf) : Bool :=
  (matches_some_path_logged signed_patterns path).1

/-! ## The staged-change record parser (`parse_diff`) -/

/-- `StagedFile` from the source (all fields are string slices of the line
except the optional numeric `score`; `i32` is modelled as `Int` with the
32-bit range enforced at parse time). -/
structure StagedFile where
  src_mode : String
  dst_mode : String
  src_hash : String
  dst_hash : String
  status : String
  score : Option Int
  src_path : String
  dst_path : String
deriving DecidableEq

/-- Take exactly `n` characters, all satisfying `p` (a fixed-length regex
character-class repetition such as `\d{6}` or `[0-9a-f]{40}`). -/
def takeCount (p : Char → Bool) : Nat → List Char → Option (List Char × List Char)
  | 0, cs => some ([], cs)
  | _ + 1, [] => none
  | n + 1, c :: cs =>
    if p c then
      match takeCount p n cs with
      | some (tk, rest) => some (c :: tk, rest)
      | none => none
    else none

/-- Consume one expected literal character. -/
def expectChar (c : Char) : List Char → Option (List Char)
  | [] => none
  | x :: rest => if x = c then some rest else none

/-- Lower-case hex, the `[0-9a-f]` class of the hash groups. -/
def isHexLower (c : Char) : Bool := c.isDigit || (decide ('a' ≤ c) && decide (c ≤ 'f'))

/-- The status-letter class `[ACDMRTUXB]`. -/
def statusChars : List Char := ['A', 'C', 'D', 'M', 'R', 'T', 'U', 'X', 'B']

/-- Whether a character list is free of newlines (`.` cannot match `\n`). -/
def noLF (cs : List Char) : Bool := !cs.any (fun c => c == '\n')

/-- The scan of the lazy tail `(.+?)(?:\t(.+))?$`, after its first character
has been consumed (`acc` holds the consumed characters in reverse): at each
boundary, the optional group matches exactly when the next character is a tab
with a nonempty newline-free remainder behind it (then group 7 is that whole
remainder, as `(.+)` is greedy and `$` pins it to the end); otherwise the
lazy group grows by one more `.`; the end of input matches `$` with the
optional group empty. -/
def tailGo (acc : List Char) : List Char → Option (List Char × Option (List Char))
  | [] => some (acc.reverse, none)
  | c :: rest =>
    if c = '\t' ∧ rest ≠ [] ∧ noLF rest = true then some (acc.reverse, some rest)
    else if c = '\n' then none
    else tailGo (c :: acc) rest

/-- Split the tail of the line into the group-6 text and the optional
group-7 text (after the first splitting tab), per `(.+?)(?:\t(.+))?$`. -/
def tailSplit : List Char → Option (List Char × Option (List Char))
  | [] => none
  | c :: rest => if c = '\n' then none else tailGo [c] rest

/-- The capture groups of one successful match of the `parse_diff` regex.
Groups 1-7 are the regex's actual (parenthesised) groups; `scoreDigits` is
the text matched by the UNCAPTURED `\d{0,3}` after the status letter, kept
here because the documented grammar (and the Python original quoted in the
source's comment) captures it as its group 6. -/
structure Captures where
  g1 : List Char
  g2 : List Char
  g3 : List Char
  g4 : List Char
  g5 : Char
  scoreDigits : List Char
  g6 : List Char
  g7 : Option (List Char)
deriving DecidableEq

/-- Try to match the whole regex starting at the current position and ending
at `$` (the end of the haystack; the `regex` crate's `$` is not multi-line).
All groups before the tail are fixed-length, so matching is deterministic;
the greedy `\d{0,3}` must take the whole digit run after the status letter
(shorter takes would face a digit where the following literal space is
required) and fails if that run exceeds three digits. -/
def matchAt (cs : List Char) : Option Captures := do
  let (g1, r1) ← takeCount Char.isDigit 6 cs
  let r1b ← expectChar ' ' r1
  let (g2, r2) ← takeCount Char.isDigit 6 r1b
  let r2b ← expectChar ' ' r2
  let (g3, r3) ← takeCount isHexLower 40 r2b
  let r3b ← expectChar ' ' r3
  let (g4, r4) ← takeCount isHexLower 40 r3b
  let r4b ← expectChar ' ' r4
  match r4b with
  | [] => none
  | st :: r5 =>
    if statusChars.contains st then
      let ds := r5.takeWhile Char.isDigit
      if ds.length > 3 then none
      else do
        let r6 ← expectChar ' ' (r5.dropWhile Char.isDigit)
        let (g6, g7) ← tailSplit r6
        some ⟨g1, g2, g3, g4, st, ds, g6, g7⟩
    else none

/-- `Regex::captures`: the leftmost match — try every start position from the
left and return the first that matches through to the end. -/
def regexCaptures : List Char → Option Captures
  | [] => none
  | c :: rest =>
    match matchAt (c :: rest) with
    | some caps => some caps
    | none => regexCaptures rest

/-- Rust `str::parse::<i32>`: an optional sign followed by one or more ASCII
digits, rejecting values outside the `i32` range (checked arithmetic overflow
during accumulation is equivalent to a final range check in base 10). -/
def parseI32 (cs : List Char) : Option Int :=
  let (neg, digits) :=
    match cs with
    | '+' :: r => (false, r)
    | '-' :: r => (true, r)
    | r => (false, r)
  if digits.isEmpty || !digits.all Char.isDigit then none
  else
    let mag : Int := digits.foldl (fun a c => a * 10 + ((c.toNat - '0'.toNat : Nat) : Int)) 0
    let v : Int := if neg then -mag else mag
    if v < -(2 ^ 31) || v > 2 ^ 31 - 1 then none else some v

/-- `parse_diff` from the source.  The regex has only seven capture groups,
but the field initialisers (following the Python original quoted in the
comment above the struct) read groups 6, 7 and 8:

* `score` is `captures.get(6)` — the text of the lazy group before any tab —
  fed to `str::parse::<i32>().unwrap()`, which panics unless that text is a
  decimal integer;
* `src_path` is `captures.get(7).unwrap()` — the text after the splitting
  tab — which panics when the line has no tab-separated second path;
* `dst_path` is `captures.get(8)`, which never exists, so `unwrap_or("")`
  always yields the empty string.

`none` models the panic of the `expect`/`unwrap` calls (no-match included). -/
def parse_diff (diff : String) : Option StagedFile :=
  match regexCaptures diff.data with
  | none => none
  | some caps =>
    match parseI32 caps.g6, caps.g7 with
    | some sc, some pathText =>
      some
        { src_mode := String.mk caps.g1
          dst_mode := String.mk caps.g2
          src_hash := String.mk caps.g3
          dst_hash := String.mk caps.g4
          status := String.mk [caps.g5]
          score := some sc
          src_path := String.mk pathText
          dst_path := "" }
    | _, _ => none

/-- Modelled from the spec: the parse that the documented grammar (spec §4.1)
and the source's own eight-group comment describe — the score is the digit
run captured right after the status letter (absent score gives `None`),
`src_path` is the group-6 text before any tab, and `dst_path` is the group-7
text after the tab, empty when there is no tab.  This is what `parse_diff`
was intended to produce; the shipped regex lost the score capture group. -/
def parse_diff_documented (diff : String) : Option StagedFile :=
  match regexCaptures diff.data with
  | none => none
  | some caps =>
    some
      { src_mode := String.mk caps.g1
        dst_mode := String.mk caps.g2
        src_hash := String.mk caps.g3
        dst_hash := String.mk caps.g4
        status := String.mk [caps.g5]
        score := if caps.scoreDigits.isEmpty then none else parseI32 caps.scoreDigits
        src_path := String.mk caps.g6
        dst_path := String.mk ((caps.g7).getD []) }

/-! ## The per-file reconciler and the batch driver -/

/-- The per-file outcome classification of the spec (§3,
`ReconciliationOutcome`). -/
inductive ReconciliationOutcome where
  | Formatted
  | Unchanged
  | Skipped
  | Failed
deriving DecidableEq

/-- The writes a single reconciliation performs: index writes and
working-tree writes, as `(path, new content)` pairs. -/
structure Effects where
  indexWrites : List (String × String)
  treeWrites : List (String × String)
deriving DecidableEq

/-- The external collaborators of one run (spec §6): blob reads by hash, the
formatter subprocess (keyed by the substituted path and the stdin content,
returning exit status and stdout), the current working-tree content, and the
patch-apply primitive (`none` = the patch does not apply cleanly). -/
structure World where
  blob : String → String
  fmt : String → String → Nat × String
  tree : String → String
  applyPatch : String → String → String → Option String

/-- Modelled from the spec: the body of `format_file_in_index` in the source
is the unimplemented placeholder `todo!("finish this function")` (only the
`orig_hash = diff_entry.dst_hash` binding exists), so the per-file
transform is taken from spec §4.4: read the staged blob at `dst_hash`, run
the formatter on it; a non-zero exit is `Failed` with no writes; output
byte-identical to the input is `Unchanged` with no writes; otherwise the
outcome is `Formatted`, and writes happen only when `write` is true (the
`--no-write` flag cleared): the index entry is updated with the formatter
output, and, when `update_working_tree` is also true, the patch
`staged → formatted` is applied to the working-tree content, leaving the
tree untouched on conflict. -/
def format_file_in_index (w : World) (diff_entry : StagedFile)
    (update_working_tree write : Bool) : ReconciliationOutcome × Effects :=
  let orig := w.blob diff_entry.dst_hash
  let res := w.fmt diff_entry.src_path orig
  if res.1 ≠ 0 then (ReconciliationOutcome.Failed, ⟨[], []⟩)
  else if res.2 = orig then (ReconciliationOutcome.Unchanged, ⟨[], []⟩)
  else if write = false then (ReconciliationOutcome.Formatted, ⟨[], []⟩)
  else
    let idx := [(diff_entry.src_path, res.2)]
    let tw :=
      if update_working_tree then
        match w.applyPatch orig res.2 (w.tree diff_entry.src_path) with
        | some patched => [(diff_entry.src_path, patched)]
        | none => []
      else []
    (ReconciliationOutcome.Formatted, ⟨idx, tw⟩)

/-- Modelled from the spec: the run's exit code is non-zero exactly when some
file's outcome was `Failed` (spec §6: "Exit code: 0 if all in-scope files
processed without Failed outcome; non-zero otherwise"); the source's `main`
contains no aggregation because the reconciler is unimplemented. -/
def run_failed (results : List (StagedFile × ReconciliationOutcome × Effects)) : Bool :=
  results.any fun r => r.2.1 == ReconciliationOutcome.Failed

/-- The loop of `format_staged_files` over the lines of
`git diff-index --cached --diff-filter=AM --no-renames HEAD` (the subprocess
output is abstracted as the `lines` argument).  Per line: `parse_diff`
(whose panic aborts the run — `none`), then the symlink skip
(`dst_mode == "120000"`, before pattern matching), then the pattern filter
on the root-joined path, and finally the per-file call, whose outcome and
writes are collected (the source only logs the boolean it gets back and
never stops the loop on it). -/
def format_staged_files (w : World) (signed_patterns : List SignedPattern)
    (git_root : PathBuf) (update_working_tree write : Bool) (lines : List String) :
    Option (List (StagedFile × ReconciliationOutcome × Effects)) :=
  match lines with
  | [] => some []
  | line :: rest =>
    match parse_diff line with
    | none => none
    | some entry =>
      if entry.dst_mode = "120000" then
        format_staged_files w signed_patterns git_root update_working_tree write rest
      else if !matches_some_path signed_patterns
          (normalize_path entry.src_path (some git_root)) then
        format_staged_files w signed_patterns git_root update_working_tree write rest
      else
        match format_staged_files w signed_patterns git_root update_working_tree write rest with
        | none => none
        | some others =>
          some ((entry, format_file_in_index w entry update_working_tree write) :: others)

/-- The driver's in-scope test for one parsed record: not a symlink, and the
pattern list matches the root-joined path. -/
def in_scope (signed_patterns : List SignedPattern) (git_root : PathBuf)
    (e : StagedFile) : Bool :=
  !(e.dst_mode == "120000") &&
    matches_some_path signed_patterns (normalize_path e.src_path (some git_root))

/-- The records of a line list that reach the per-file reconciler: every line
parsed (a parse failure aborts the whole run), filtered by `in_scope`. -/
def staged_records_in_scope (signed_patterns : List SignedPattern) (git_root : PathBuf) :
    List String → Option (List StagedFile)
  | [] => some []
  | line :: rest =>
    match parse_diff line with
    | none => none
    | some entry =>
      match staged_records_in_scope signed_patterns git_root rest with
      | none => none
      | some others =>
        some (if in_scope signed_patterns git_root entry then entry :: others else others)

/-! ## Helper lemmas -/

/-- The matcher loop is the left fold of the claim: accumulator overwritten
with the sign of every pattern whose glob matches. -/
theorem matchLoop_foldl (path_str : String) :
    ∀ (ps : List SignedPattern) (acc : Bool),
      matchLoop path_str ps acc =
        ps.foldl (fun a sp => if sp.pattern.matches path_str then sp.positive else a) acc := by
  intro ps
  induction ps with
  | nil => intro acc; rfl
  | cons sp rest ih => intro acc; rw [matchLoop, List.foldl_cons, ih]

/-- When no pattern's glob matches the string, the loop returns its
accumulator unchanged. -/
theorem matchLoop_of_none (path_str : String) :
    ∀ (ps : List SignedPattern) (acc : Bool),
      ps.all (fun sp => !sp.pattern.matches path_str) = true →
      matchLoop path_str ps acc = acc := by
  intro ps
  induction ps with
  | nil => intro acc _; rfl
  | cons sp rest ih =>
    intro acc h
    rw [List.all_cons, Bool.and_eq_true] at h
    have hm : sp.pattern.matches path_str = false := by
      have := h.1
      simp at this
      exact this
    rw [matchLoop, if_neg (by simp [hm]), ih acc h.2]

/-- `all` over a (type-changing) `map`. -/
theorem list_all_map {α β : Type} (f : α → β) (p : β → Bool) :
    ∀ l : List α, (l.map f).all p = l.all (fun a => p (f a)) := by
  intro l
  induction l with
  | nil => rfl
  | cons a t ih => simp [ih]

/-- `any` over a (type-changing) `map`. -/
theorem list_any_map {α β : Type} (f : α → β) (p : β → Bool) :
    ∀ l : List α, (l.map f).any p = l.any (fun a => p (f a)) := by
  intro l
  induction l with
  | nil => rfl
  | cons a t ih => simp [ih]

/-- `Option.getD []` commutes with mapping under `Option.map`. -/
theorem omap_getD {α β : Type} (g : α → β) (o : Option (List α)) :
    ((Option.map (List.map g) o).getD []) = (o.getD []).map g := by
  cases o <;> rfl

/-- The batch driver is the per-record map of the reconciler over the
in-scope records: each in-scope file is processed exactly once, with its own
outcome and writes, independently of every other file's outcome. -/
theorem driver_eq_map (w : World) (sp : List SignedPattern) (root : PathBuf)
    (uwt wr : Bool) :
    ∀ lines, format_staged_files w sp root uwt wr lines =
      Option.map (List.map fun e => (e, format_file_in_index w e uwt wr))
        (staged_records_in_scope sp root lines) := by
  intro lines
  induction lines with
  | nil => rfl
  | cons line rest ih =>
    rw [format_staged_files, staged_records_in_scope]
    cases hp : parse_diff line with
    | none => rfl
    | some entry =>
      dsimp only
      by_cases hd : entry.dst_mode = "120000"
      · rw [if_pos hd, ih]
        have hscope : in_scope sp root entry = false := by simp [in_scope, hd]
        cases hs : staged_records_in_scope sp root rest with
        | none => rfl
        | some others => simp [hscope]
      · rw [if_neg hd]
        by_cases hm : matches_some_path sp (normalize_path entry.src_path (some root)) = true
        · have hscope : in_scope sp root entry = true := by simp [in_scope, hd, hm]
          rw [if_neg (by simp [hm])]
          cases hs : staged_records_in_scope sp root rest with
          | none => rw [ih, hs]; rfl
          | some others => rw [ih, hs]; simp [hscope]
        · have hm' : matches_some_path sp (normalize_path entry.src_path (some root)) = false := by
            simpa using hm
          have hscope : in_scope sp root entry = false := by simp [in_scope, hm']
          rw [if_pos (by simp [hm']), ih]
          cases hs : staged_records_in_scope sp root rest with
          | none => rfl
          | some others => simp [hscope]

/-- No symlink record (`dst_mode = "120000"`) is ever among the in-scope
records: the driver skips them before pattern matching. -/
theorem srs_no_symlink (sp : List SignedPattern) (root : PathBuf) :
    ∀ lines, ((staged_records_in_scope sp root lines).getD []).all
      (fun e => !(e.dst_mode == "120000")) = true := by
  intro lines
  induction lines with
  | nil => rfl
  | cons line rest ih =>
    rw [staged_records_in_scope]
    cases hp : parse_diff line with
    | none => rfl
    | some entry =>
      dsimp only
      cases hs : staged_records_in_scope sp root rest with
      | none => rfl
      | some others =>
        rw [hs] at ih
        by_cases hin : in_scope sp root entry = true
        · have hd : (entry.dst_mode == "120000") = false := by
            rw [in_scope, Bool.and_eq_true] at hin
            simpa using hin.1
          simp only [hin, if_pos]
          simpa [hd] using ih
        · have hin' : in_scope sp root entry = false := by simpa using hin
          simpa [hin'] using ih

/-- With writes disabled, the reconciler writes nothing. -/
theorem ffi_no_write_effects (w : World) (e : StagedFile) (uwt : Bool) :
    (format_file_in_index w e uwt false).2 = Effects.mk [] [] := by
  rw [format_file_in_index]
  split_ifs with h1 h2 h3 <;> first | rfl | exact absurd rfl h3

/-- The reconciler's outcome is `Failed` exactly when the formatter run on
the staged blob exits non-zero (for any flag combination). -/
theorem ffi_failed_iff (w : World) (e : StagedFile) (uwt wr : Bool) :
    ((format_file_in_index w e uwt wr).1 = ReconciliationOutcome.Failed)
      ↔ (w.fmt e.src_path (w.blob e.dst_hash)).1 ≠ 0 := by
  rw [format_file_in_index]
  split_ifs with h1 h2 h3
  · simp [h1]
  · simp [h1]
  · simp [h1]
  · simp [h1]

/-- A pattern whose first token is a literal other than `/` cannot match a
string that starts with `/`. -/
theorem literal_head_no_slash_match (c : Char) (ts : List Token) (s : String)
    (hc : c ≠ '/') (hs : s.data.head? = some '/') :
    Pattern.matches ⟨Token.char c :: ts⟩ s = false := by
  obtain ⟨tail, heq⟩ : ∃ t, s.data = '/' :: t := by
    cases hdata : s.data with
    | nil => rw [hdata] at hs; simp at hs
    | cons x t =>
      rw [hdata] at hs
      simp at hs
      exact ⟨t, by rw [hs]⟩
  have hc' : ¬('/' = c) := fun h => hc h.symm
  obtain ⟨k, hk⟩ : ∃ k, globMeasure none (Token.char c :: ts) ('/' :: tail) = k + 1 :=
    ⟨globMeasure none (Token.char c :: ts) ('/' :: tail) - 1, by simp [globMeasure]⟩
  rw [Pattern.matches]
  simp only [heq, hk]
  rw [globGo] <;> simp [tokenMatchesChar, hc']

/-! ## Concrete material used to instantiate the claims -/

/-- A 40-hex-digit src blob id. -/
def hashA : String := "aaaaaaaaaaaaaaaaaaaaaaaaaaaaaaaaaaaaaaaa"

/-- A 40-hex-digit dst blob id (the demo formatter fails on this blob). -/
def hashB : String := "bbbbbbbbbbbbbbbbbbbbbbbbbbbbbbbbbbbbbbbb"

/-- Another 40-hex-digit dst blob id. -/
def hashC : String := "cccccccccccccccccccccccccccccccccccccccc"

/-- The compiled form of the pattern `*.js`. -/
def spStarJs : SignedPattern :=
  ⟨true, ⟨[Token.anySequence, Token.char '.', Token.char 'j', Token.char 's']⟩⟩

/-- The compiled form of the negated pattern `!test/*.js`. -/
def spBangTestJs : SignedPattern :=
  ⟨false, ⟨[Token.char 't', Token.char 'e', Token.char 's', Token.char 't', Token.char '/',
            Token.anySequence, Token.char '.', Token.char 'j', Token.char 's']⟩⟩

/-- The compiled form of the literal pattern `main.js`. -/
def spMainJs : SignedPattern :=
  ⟨true, ⟨[Token.char 'm', Token.char 'a', Token.char 'i', Token.char 'n',
           Token.char '.', Token.char 'j', Token.char 's']⟩⟩

/-- An ordinary well-formed staged-change line (a modified file, no rename,
no score): it matches the documented grammar exactly. -/
def c1Line : String := "100644 100644 " ++ hashA ++ " " ++ hashB ++ " M src/app.js"

/-- A line whose status letter `Z` is outside `{A,C,D,M,R,T,U,X,B}`. -/
def c6BadStatusLine : String := "100644 100644 " ++ hashA ++ " " ++ hashB ++ " Z file.txt"

/-- A line whose pre-tab path column is the text `-12`: under the shipped
regex this column is capture 6, which the source parses as the `score`. -/
def c6NegLine : String := "100644 100644 " ++ hashA ++ " " ++ hashB ++ " R -12\tREADME.md"

/-- An inert collaborator record (its formatter always succeeds and echoes
nothing). -/
def trivWorld : World :=
  ⟨fun _ => "", fun _ _ => (0, ""), fun _ => "", fun _ _ _ => none⟩

/-- Demo collaborators: the blob at `hashB` formats with exit status 1;
every other blob reads as `x=1` and formats successfully to `x = 1;\n`. -/
def demoWorld : World where
  blob := fun h => if h = hashB then "bad content" else "x=1"
  fmt := fun _ content => if content = "bad content" then (1, "") else (0, "x = 1;\n")
  tree := fun _ => "x=1"
  applyPatch := fun _ new _ => some new

/-- Four staged-change lines: three modified `.js` files (the middle one's
blob makes the formatter fail) and one type-change to a symbolic link
(`dst_mode = 120000`).  The lines are shaped so that the SHIPPED parser
accepts them (a numeric pre-tab column, which it mistakes for the score, and
the real path after a tab) — on ordinary `git diff-index` lines the shipped
parser aborts, see the C1/C6 theorems. -/
def demoLines : List String :=
  ["100644 100644 " ++ hashA ++ " " ++ hashA ++ " M 0\ta.js",
   "100644 100644 " ++ hashA ++ " " ++ hashB ++ " M 0\tb.js",
   "100644 100644 " ++ hashA ++ " " ++ hashC ++ " M 0\tc.js",
   "100644 120000 " ++ hashA ++ " " ++ hashC ++ " T 0\td.js"]

/-! ## The claims -/

/-- Claim C1: the claim says that parsing a line matching the documented
grammar succeeds and returns exactly the captured fields.  The code violates
this: its regex does not capture the score digits, so the source reads the
pre-tab path text as group 6 (feeding it to `parse::<i32>().unwrap()`) and
the post-tab text as group 7 (`unwrap`ped).  On the ordinary well-formed
line `c1Line` the program panics (`parse_diff c1Line = none`), while the
documented grammar (`parse_diff_documented`) extracts the fields the claim
describes. -/
theorem c1_parse_diff_panics_on_wellformed_line :
    parse_diff c1Line = none ∧
    parse_diff_documented c1Line =
      some ⟨"100644", "100644", hashA, hashB, "M", none, "src/app.js", ""⟩ := by
  constructor
  · decide
  · decide

/-- Claim C2: `matches_some_path` on a text-representable path equals the
left fold that starts at `false` and overwrites the accumulator with each
matching pattern's sign, and on the concrete lists of the claim:
`["*.js", "!test/*.js"]` excludes `test/a.js` while the reversed list
includes it (the compiled forms of those two pattern texts being `spStarJs`
and `spBangTestJs`). -/
theorem c2_matcher_is_last_match_wins_fold :
    (∀ (ps : List SignedPattern) (s : String),
        matches_some_path ps (PathBuf.utf8 s) =
          ps.foldl (fun acc sp => if sp.pattern.matches s then sp.positive else acc) false) ∧
    SignedPattern.from_str "*.js" = .ok spStarJs ∧
    SignedPattern.from_str "!test/*.js" = .ok spBangTestJs ∧
    matches_some_path [spStarJs, spBangTestJs] (PathBuf.utf8 "test/a.js") = false ∧
    matches_some_path [spBangTestJs, spStarJs] (PathBuf.utf8 "test/a.js") = true := by
  refine ⟨?_, by decide, by decide, by decide, by decide⟩
  intro ps s
  exact matchLoop_foldl s ps false

/-- Claim C3: no record with `dst_mode = "120000"` (a symbolic link) is ever
passed to the per-file reconciler, for every pattern list, root, flag
combination and line list: the driver's symlink check precedes pattern
matching, so even an include pattern that matches the path cannot bring a
symlink into scope. -/
theorem c3_symlinks_never_reach_reconciler :
    ∀ (w : World) (sp : List SignedPattern) (root : PathBuf) (uwt wr : Bool)
      (lines : List String),
      ((format_staged_files w sp root uwt wr lines).getD []).all
        (fun r => !(r.1.dst_mode == "120000")) = true := by
  intro w sp root uwt wr lines
  rw [driver_eq_map, omap_getD, list_all_map]
  simpa using srs_no_symlink sp root lines

/-- Claim C4: with `--no-write` (the `write` flag false), every processed
file has empty index-write and tree-write effect lists; the formatter is
still consulted — a file's outcome is `Failed` exactly when the formatter
run on its staged blob exits non-zero — and the run's exit-code predicate
equals "some processed file's formatter exited non-zero". -/
theorem c4_no_write_writes_nothing_but_still_fails :
    ∀ (w : World) (sp : List SignedPattern) (root : PathBuf) (uwt : Bool)
      (lines : List String),
      (((format_staged_files w sp root uwt false lines).getD []).all
          (fun r => decide (r.2.2 = Effects.mk [] []))) = true ∧
      (((format_staged_files w sp root uwt false lines).getD []).all
          (fun r => decide (r.2.1 = ReconciliationOutcome.Failed)
              == decide ((w.fmt r.1.src_path (w.blob r.1.dst_hash)).1 ≠ 0))) = true ∧
      run_failed ((format_staged_files w sp root uwt false lines).getD [])
        = ((format_staged_files w sp root uwt false lines).getD []).any
            (fun r => decide ((w.fmt r.1.src_path (w.blob r.1.dst_hash)).1 ≠ 0)) := by
  intro w sp root uwt lines
  rw [driver_eq_map, omap_getD]
  refine ⟨?_, ?_, ?_⟩
  · rw [list_all_map]
    refine List.all_eq_true.mpr ?_
    intro e _
    simp [ffi_no_write_effects]
  · rw [list_all_map]
    refine List.all_eq_true.mpr ?_
    intro e _
    simp [ffi_failed_iff w e uwt false]
  · rw [run_failed, list_any_map, list_any_map]
    congr 1
    funext e
    rw [Bool.eq_iff_iff]
    simp [ffi_failed_iff w e uwt false]

/-- Claim C5: the run is the independent per-record map of the reconciler
over the in-scope records — one file's `Failed` outcome never prevents the
remaining files from being processed — and in the concrete four-line demo
the middle file's formatter failure leaves the other two `.js` files
formatted with their index writes applied while the run as a whole fails. -/
theorem c5_failed_file_does_not_stop_run :
    (∀ (w : World) (sp : List SignedPattern) (root : PathBuf) (uwt wr : Bool)
        (lines : List String),
        format_staged_files w sp root uwt wr lines =
          Option.map (List.map fun e => (e, format_file_in_index w e uwt wr))
            (staged_records_in_scope sp root lines)) ∧
    (format_staged_files demoWorld [spStarJs] (PathBuf.utf8 "/repo") false true
        demoLines).map (List.map fun r => (r.1.src_path, r.2.1)) =
      some [("a.js", ReconciliationOutcome.Formatted),
            ("b.js", ReconciliationOutcome.Failed),
            ("c.js", ReconciliationOutcome.Formatted)] ∧
    (format_staged_files demoWorld [spStarJs] (PathBuf.utf8 "/repo") false true
        demoLines).map (List.map fun r => r.2.2.indexWrites) =
      some [[("a.js", "x = 1;\n")], [], [("c.js", "x = 1;\n")]] ∧
    (format_staged_files demoWorld [spStarJs] (PathBuf.utf8 "/repo") false true
        demoLines).map run_failed = some true := by
  refine ⟨driver_eq_map, by decide, by decide, by decide⟩

/-- Claim C6: parse-failure behaviour.  The status-letter restriction and
the run-fatality hold (a `Z`-status line fails to parse, and one malformed
line makes the whole run abort rather than being skipped).  But the claim's
"fails exactly when the line does not match the documented shape" and
"accepts a score only when it is a non-negative integer immediately
following the status" are violated by the same lost capture group as C1:
`c1Line` matches the shape yet fails (see the C1 theorem), and on `c6NegLine`
the code accepts the NEGATIVE number `-12` — taken from the path column, not
from after the status letter — as the score. -/
theorem c6_parse_failure_modes :
    parse_diff c6BadStatusLine = none ∧
    format_staged_files trivWorld [] (PathBuf.utf8 "/r") true true [c6BadStatusLine] = none ∧
    parse_diff c6NegLine =
      some ⟨"100644", "100644", hashA, hashB, "R", some (-12), "README.md", ""⟩ := by
  refine ⟨by decide, by decide, by decide⟩

/-- Claim C7: a path that cannot be represented as text is failed closed by
the matcher: the result is `false` (the file is skipped) for every pattern
list, and the path-encoding warning is emitted. -/
theorem c7_unrepresentable_path_fails_closed :
    ∀ (sp : List SignedPattern) (p : PathBuf), p.toStr = none →
      matches_some_path_logged sp p = (false, [LogEvent.pathEncodingWarning p]) := by
  intro sp p h
  cases p with
  | utf8 s => simp [PathBuf.toStr] at h
  | invalid => rfl

/-- Witness for C7 at the concrete non-representable path. -/
theorem c7_unrepresentable_path_fails_closed_witness :
    PathBuf.invalid.toStr = none ∧
    matches_some_path_logged [spStarJs] PathBuf.invalid =
      (false, [LogEvent.pathEncodingWarning PathBuf.invalid]) :=
  ⟨rfl, c7_unrepresentable_path_fails_closed [spStarJs] PathBuf.invalid rfl⟩

/-- Claim C8: the empty pattern list excludes every path, and whenever no
pattern in the list matches a path's string the matcher returns `false`
(default deny). -/
theorem c8_default_deny :
    (∀ p : PathBuf, matches_some_path [] p = false) ∧
    (∀ (sp : List SignedPattern) (s : String),
        sp.all (fun q => !q.pattern.matches s) = true →
        matches_some_path sp (PathBuf.utf8 s) = false) := by
  constructor
  · intro p
    cases p <;> rfl
  · intro sp s h
    exact matchLoop_of_none s sp false h

/-- Witness for C8: `*.js` does not match `README.md`, so the one-pattern
list excludes it. -/
theorem c8_default_deny_witness :
    ([spStarJs].all (fun q => !q.pattern.matches "README.md")) = true ∧
    matches_some_path [spStarJs] (PathBuf.utf8 "README.md") = false :=
  ⟨by decide, c8_default_deny.2 [spStarJs] "README.md" (by decide)⟩

/-- Claim C9: for a relative path and an absolute root, `normalize_path` is
exactly the lexical join (insert `/` unless the root already ends in one);
with no root the relative path is returned unchanged; and nothing is
canonicalised — a `..` component survives the join untouched. -/
theorem c9_normalize_path_is_lexical_join :
    (∀ (root rel : String), strIsAbsolute rel = false → strIsAbsolute root = true →
        (normalize_path rel (some (PathBuf.utf8 root))).toStr =
          some (if strEndsWithSlash root then root ++ rel else root ++ "/" ++ rel) ∧
        (normalize_path rel none).toStr = some rel) ∧
    (normalize_path "../x" (some (PathBuf.utf8 "/repo"))).toStr = some "/repo/../x" := by
  constructor
  · intro root rel h1 h2
    constructor
    · have hne : root.data.isEmpty = false := by
        rw [strIsAbsolute] at h2
        cases hd : root.data with
        | nil => rw [hd] at h2; simp at h2
        | cons a t => simp
      simp [normalize_path, PathBuf.join, joinStr, PathBuf.toStr, h1, hne]
    · rfl
  · decide

/-- Witness for C9 at a concrete relative path and absolute root. -/
theorem c9_normalize_path_is_lexical_join_witness :
    strIsAbsolute "src/a.js" = false ∧ strIsAbsolute "/repo" = true ∧
    (normalize_path "src/a.js" (some (PathBuf.utf8 "/repo"))).toStr =
      some "/repo/src/a.js" := by
  refine ⟨by decide, by decide, ?_⟩
  have h := (c9_normalize_path_is_lexical_join.1 "/repo" "src/a.js" (by decide) (by decide)).1
  rw [h]
  decide

/-- Claim C10: the driver evaluates the patterns against the root-joined
path string; a repository-relative literal pattern such as `main.js`
(compiled to `spMainJs`) matches no record whenever the root is absolute,
because the joined string starts with `/` while the pattern starts with the
literal `m`; and `*.js` can match an absolute path because `*` may span `/`
under the matcher's default options. -/
theorem c10_patterns_see_absolute_paths :
    (∀ (sp : List SignedPattern) (root : String) (e : StagedFile),
        in_scope sp (PathBuf.utf8 root) e =
          (!(e.dst_mode == "120000") &&
            matches_some_path sp (PathBuf.utf8 (joinStr root e.src_path)))) ∧
    SignedPattern.from_str "main.js" = .ok spMainJs ∧
    (∀ (root rel : String), strIsAbsolute root = true →
        spMainJs.pattern.matches (joinStr root rel) = false) ∧
    spStarJs.pattern.matches "/repo/test/a.js" = true := by
  refine ⟨?_, by decide, ?_, by decide⟩
  · intro sp root e
    rfl
  · intro root rel h
    rw [strIsAbsolute] at h
    have hr : root.data.head? = some '/' := by simpa using h
    obtain ⟨rt, hroot⟩ : ∃ t, root.data = '/' :: t := by
      cases hd : root.data with
      | nil => rw [hd] at hr; simp at hr
      | cons a t =>
        rw [hd] at hr
        simp at hr
        exact ⟨t, by rw [hr]⟩
    have hhead : (joinStr root rel).data.head? = some '/' := by
      rw [joinStr]
      split_ifs with ha hb hc
      · rw [strIsAbsolute] at ha
        simpa using ha
      · rw [hroot] at hb
        simp at hb
      · rw [String.data_append, hroot]
        simp
      · rw [String.data_append, String.data_append, hroot]
        simp
    exact literal_head_no_slash_match 'm'
      [Token.char 'a', Token.char 'i', Token.char 'n',
       Token.char '.', Token.char 'j', Token.char 's']
      (joinStr root rel) (by decide) hhead

/-- Witness for C10: with the absolute root `/repo`, the literal pattern
`main.js` fails to match even its own record path `main.js`. -/
theorem c10_patterns_see_absolute_paths_witness :
    strIsAbsolute "/repo" = true ∧
    spMainJs.pattern.matches (joinStr "/repo" "main.js") = false :=
  ⟨by decide, c10_patterns_see_absolute_paths.2.2.1 "/repo" "main.js" (by decide)⟩
